import Mathlib

/-!
Shallow embedding of the alert365 daily-digest batch job
(src/scripts/daily-digest.js) together with theorems about its
matching pass, date resolution, enrichment, rendering and dispatching.

JavaScript runtime values are modelled as follows: a nullable column
value is an `Option`; JS truthiness of a nullable number is explicit in
`jsFalsyNat` / `jsFalsyInt` (0, null and undefined are falsy); both the
`undefined` that results from a failed object-key lookup and the
`undefined` produced by optional chaining on a null field are `none`, so
the SameValueZero equality used by `Array.prototype.includes` is plain
`Option` equality.  `Object.fromEntries` keeps the last entry for a
duplicated key, which `lookupEntry` reproduces by searching the reversed
entry list.
-/

namespace Alert365

/-- JS truthiness test for a nullable natural number: `null`/`undefined`
and `0` are falsy. -/
def jsFalsyNat : Option Nat → Bool
  | none => true
  | some n => n = 0

/-- JS truthiness test for a nullable integer: `null`/`undefined`
and `0` are falsy. -/
def jsFalsyInt : Option Int → Bool
  | none => true
  | some n => n = 0

/-- JS truthiness test for a nullable string: `null`/`undefined`
and the empty string are falsy. -/
def jsFalsyStr : Option String → Bool
  | none => true
  | some s => s = ""

/-- JS `String.prototype.toLowerCase`, modelled as the per-character
simple case mapping (the data of this program is ASCII). -/
def jsToLowerCase (s : String) : String :=
  ⟨s.data.map Char.toLower⟩

/-- Key lookup after `Object.fromEntries`: the last entry with
the key wins; a missing key yields `undefined` (`none`). -/
def lookupEntry {α : Type} (entries : List (Nat × α)) (k : Nat) : Option α :=
  (entries.reverse.find? (fun p => p.1 = k)).map (fun p => p.2)

/-- Row of the `sports` table (`select id, name, emoji`). -/
structure Sport where
  id : Int
  name : String
  emoji : String
deriving DecidableEq, Repr

/-- Row of the `teams` table (`select id, name`). -/
structure Team where
  id : Nat
  name : String
deriving DecidableEq, Repr

/-- Row of the `broadcasters` table (`select *`). -/
structure Broadcaster where
  id : Nat
  name : String
  url : String
  type : String
deriving DecidableEq, Repr

/-- Row of the `events` table (`select *`), as the script reads it. -/
structure Event where
  id : Nat
  sport_id : Int
  competition : Option String
  date : String
  time : Option String
  event_detail_1 : Option String
  event_detail_2 : Option String
  broadcaster_ids : Option (List Nat)
  start_at : Option String
deriving DecidableEq, Repr

/-- Row of the `alerts` table
(`select id, user_id, sport_id, league_id, team_id` with type = email). -/
structure Alert where
  id : Nat
  user_id : Nat
  sport_id : Int
  league_id : Option Int
  team_id : Option Nat
deriving DecidableEq, Repr

/-- Row of the `users` table (`select id, email`). -/
structure User where
  id : Nat
  email : Option String
deriving DecidableEq, Repr

/-- The `teamsMap` of line 62: entries `[t.id, t.name.toLowerCase()]`. -/
def mkTeamsMap (teams : List Team) : List (Nat × String) :=
  teams.map (fun t => (t.id, jsToLowerCase t.name))

/-- Reading `teamsMap[tid]` as the script does. -/
def teamNameLookup (teams : List Team) (tid : Nat) : Option String :=
  lookupEntry (mkTeamsMap teams) tid

/-- The parenthesised ternary of line 80:
`event.competition === "ATP Tour" ? 1 : event.competition === "WTA Tour" ? 22 : null`. -/
def tennisLeagueCode (competition : Option String) : Option Int :=
  if competition = some "ATP Tour" then some 1
  else if competition = some "WTA Tour" then some 22
  else none

/-- Tennis branch of the matcher (line 80):
`!alert.league_id || alert.league_id === (competition-derived code)`. -/
def tennisMatch (a : Alert) (e : Event) : Bool :=
  jsFalsyInt a.league_id || a.league_id == tennisLeagueCode e.competition

/-- Generic branch of the matcher (line 81):
`!alert.team_id || [event.event_detail_1, event.event_detail_2]
   .map(x => x?.toLowerCase()).includes(teamsMap[alert.team_id])`.
A detail field that is null maps to `undefined` (`none`), and a failed
`teamsMap` lookup is also `undefined`, so `includes` compares them with
plain `Option` equality. -/
def genericMatch (teams : List Team) (a : Alert) (e : Event) : Bool :=
  jsFalsyNat a.team_id ||
    ([e.event_detail_1.map jsToLowerCase,
      e.event_detail_2.map jsToLowerCase].contains
        (a.team_id.bind (teamNameLookup teams)))

/-- One (event, alert) comparison of the matching loop (lines 75-81):
skip on sport mismatch, then branch on `event.sport_id === 20`. -/
def eventAlertMatch (teams : List Team) (e : Event) (a : Alert) : Bool :=
  if a.sport_id ≠ e.sport_id then false
  else if e.sport_id = 20 then tennisMatch a e
  else genericMatch teams a e

/-- JS `Set.add`, on a list kept duplicate-free in insertion order. -/
def setAdd (s : List Nat) (x : Nat) : List Nat :=
  if x ∈ s then s else s ++ [x]

/-- JS `Map.get(uid).add(x)` with `Map.set(uid, new Set())` on first use:
association list in key-insertion order. -/
def mapAdd (m : List (Nat × List Nat)) (uid : Nat) (x : Nat) :
    List (Nat × List Nat) :=
  match m with
  | [] => [(uid, [x])]
  | (u, s) :: rest =>
      if u = uid then (u, setAdd s x) :: rest else (u, s) :: mapAdd rest uid x

/-- The matching pass (lines 73-88): for every event (identified by its
index in the fetched list, standing for JS object identity), for every
alert, add the event to the alert owner's set when the pair matches. -/
def runMatcher (teams : List Team) (events : List Event) (alerts : List Alert) :
    List (Nat × List Nat) :=
  events.enum.foldl
    (fun m ie =>
      alerts.foldl
        (fun m a =>
          if eventAlertMatch teams ie.2 a then mapAdd m a.user_id ie.1 else m)
        m)
    []

/-! ### Date Resolver (lines 29-40)

The script reads the current instant as a civil date-time in the fixed
zone Europe/Paris via luxon (`DateTime.now().setZone("Europe/Paris")`).
Luxon itself is an external library; its civil-calendar operations
`toISODate` and `plus(\x7bdays: 1\x7d)` are modelled here by standard
proleptic-Gregorian calendar arithmetic on the local date fields. -/

/-- A civil date-time in the reference timezone, as luxon exposes it. -/
structure CivilDateTime where
  year : Nat
  month : Nat
  day : Nat
  hour : Nat
  minute : Nat
deriving DecidableEq, Repr

/-- Gregorian leap-year rule. -/
def isLeap (y : Nat) : Bool :=
  (y % 4 = 0 && y % 100 ≠ 0) || y % 400 = 0

/-- Number of days in a Gregorian month. -/
def daysInMonth (y m : Nat) : Nat :=
  if m = 2 then (if isLeap y then 29 else 28)
  else if m = 4 ∨ m = 6 ∨ m = 9 ∨ m = 11 then 30
  else 31

/-- The civil calendar date one day later (luxon `plus` with one day). -/
def nextDay (y m d : Nat) : Nat × Nat × Nat :=
  if d < daysInMonth y m then (y, m, d + 1)
  else if m < 12 then (y, m + 1, 1)
  else (y + 1, 1, 1)

/-- Zero-pad a numeral to two digits. -/
def pad2 (n : Nat) : String :=
  if n < 10 then "0" ++ toString n else toString n

/-- Zero-pad a numeral to four digits. -/
def pad4 (n : Nat) : String :=
  if n < 10 then "000" ++ toString n
  else if n < 100 then "00" ++ toString n
  else if n < 1000 then "0" ++ toString n
  else toString n

/-- luxon `toISODate`: the ISO YYYY-MM-DD rendering of a civil date. -/
def toISODate (y m d : Nat) : String :=
  pad4 y ++ "-" ++ pad2 m ++ "-" ++ pad2 d

/-- The Date Resolver (lines 32-40): before 6 AM local take today,
otherwise take tomorrow, as an ISO date string. -/
def targetDateOf (now : CivilDateTime) : String :=
  if now.hour < 6 then toISODate now.year now.month now.day
  else
    let t := nextDay now.year now.month now.day
    toISODate t.1 t.2.1 t.2.2

/-! ### Event Enricher (lines 68-70) -/

/-- The `broadcasterMap` of line 64, built from the broadcasters query result. -/
def mkBroadcasterMap (bs : List Broadcaster) : List (Nat × Broadcaster) :=
  bs.map (fun b => (b.id, b))

/-- JS `Array.prototype.filter(Boolean)` over a list whose entries are
either objects (truthy) or `undefined`: drops the `undefined` entries. -/
def filterBoolean {α : Type} (l : List (Option α)) : List α :=
  l.foldr (fun x acc => match x with | some b => b :: acc | none => acc) []

/-- The enrichment of one event (line 69):
`(e.broadcaster_ids || []).map(id => broadcasterMap[id]).filter(Boolean)`. -/
def enrichBroadcasters (bmap : Nat → Option Broadcaster)
    (ids : Option (List Nat)) : List Broadcaster :=
  filterBoolean ((ids.getD []).map bmap)

/-- An event together with its derived broadcasters list. -/
structure EnrichedEvent where
  event : Event
  broadcasters : List Broadcaster
deriving DecidableEq, Repr

/-- The enrichment pass over the fetched events. -/
def enrichEvent (bmap : Nat → Option Broadcaster) (e : Event) : EnrichedEvent :=
  { event := e, broadcasters := enrichBroadcasters bmap e.broadcaster_ids }

/-! ### Digest Renderer, broadcasters section (lines 194-195, 322-346)

The renderer emits an HTML string; the claims are about which group
headers, broadcaster rows and placeholder it contains and in what
order, so the section is modelled as the list of those emitted items.
`localeCompare`-based alphabetical order is modelled as the standard
order on strings. -/

/-- One emitted item of the broadcasters section of an event block. -/
inductive SectionItem where
  | tvHeader
  | streamingHeader
  | row (b : Broadcaster)
  | noBroadcaster
deriving DecidableEq, Repr

/-- JS `.sort((a, b) => a.name.localeCompare(b.name))`: stable sort by
broadcaster name ascending. -/
def sortByName (l : List Broadcaster) : List Broadcaster :=
  l.mergeSort (fun a b => a.name ≤ b.name)

/-- The `tv` list of line 194. -/
def tvListOf (bs : List Broadcaster) : List Broadcaster :=
  sortByName (bs.filter (fun b => b.type = "tv"))

/-- The `streaming` list of line 195. -/
def streamingListOf (bs : List Broadcaster) : List Broadcaster :=
  sortByName (bs.filter (fun b => b.type = "streaming"))

/-- The broadcasters section of one event block (lines 322-346): the TV
group when nonempty, then the STREAMING group when nonempty, then the
placeholder when both are empty. -/
def broadcastersSection (bs : List Broadcaster) : List SectionItem :=
  let tv := tvListOf bs
  let streaming := streamingListOf bs
  (if tv.length > 0 then SectionItem.tvHeader :: tv.map SectionItem.row else []) ++
  (if streaming.length > 0 then
      SectionItem.streamingHeader :: streaming.map SectionItem.row else []) ++
  (if tv.length = 0 ∧ streaming.length = 0 then [SectionItem.noBroadcaster] else [])

/-! ### Dispatcher (lines 90-125)

The send loop is modelled by the trace of its externally visible
actions: attempted sends (`sgMail.send`), the short sleep after every
send (`DELAY_BETWEEN_EMAILS`) and the long sleep between batches
(`DELAY_BETWEEN_BATCHES`). -/

/-- One externally visible action of the send loop. -/
inductive Action where
  | send (uid : Nat)
  | shortDelay
  | longDelay
deriving DecidableEq, Repr

/-- The body of one batch (lines 99-122): users whose email is falsy or
whose event set is empty are skipped; every other user yields a send
attempt followed by the short delay. -/
def processBatch (emails : Nat → Option String)
    (batch : List (Nat × List Nat)) : List Action :=
  batch.flatMap
    (fun p =>
      if jsFalsyStr (emails p.1) || p.2.isEmpty then []
      else [Action.send p.1, Action.shortDelay])

/-- The batch loop (lines 96-125): slices of `B` users, with the long
delay after a batch exactly when `i + B < usersList.length`.  The JS
loop never terminates for `B = 0`; the model is only meaningful for
`0 < B` (the theorems assume it). -/
def dispatchTrace (emails : Nat → Option String) (B : Nat)
    (users : List (Nat × List Nat)) : List Action :=
  if h : 0 < B ∧ B < users.length then
    processBatch emails (users.take B) ++
      Action.longDelay :: dispatchTrace emails B (users.drop B)
  else
    processBatch emails users
termination_by users.length
decreasing_by
  simp only [List.length_drop]
  omega

/-- Spec-side grouping: consecutive groups of `B` users in order, the
number of groups being the length divided by `B` rounded up. -/
def groupsSpec {α : Type} (B : Nat) (users : List α) : List (List α) :=
  (List.range ((users.length + B - 1) / B)).map
    (fun i => (users.drop (i * B)).take B)

/-- Spec-side recombination: the group traces joined with the long
delay exactly between consecutive groups and never after the last. -/
def joinWithDelay : List (List Action) → List Action
  | [] => []
  | [g] => g
  | g :: gs => g ++ Action.longDelay :: joinWithDelay gs

/-! ### Top-level run (function `main`, lines 21-128, and line 356)

`main` is modelled as a function of the six query results and of the
transport's behaviour (`sendOk email` tells whether `sgMail.send` to
that address succeeds), returning the run outcome together with the
dispatcher trace. -/

/-- Shape of one supabase query result. -/
structure QueryRes (α : Type) where
  data : Option (List α)
  error : Option String
deriving Repr

/-- The six query results of lines 43-50. -/
structure FetchResults where
  sportsRes : QueryRes Sport
  eventsRes : QueryRes Event
  broadcastersRes : QueryRes Broadcaster
  teamsRes : QueryRes Team
  alertsRes : QueryRes Alert
  usersRes : QueryRes User

/-- How a run of `main` ends. -/
inductive RunOutcome where
  | fatal (msg : String)
  | noEvents
  | done (sent : Nat) (failed : Nat)
deriving DecidableEq, Repr

/-- The `userIdToEmail` map of line 63. -/
def mkUserEmailMap (us : List User) : Nat → Option String :=
  fun uid => (lookupEntry (us.map (fun u => (u.id, u.email))) uid).bind id

/-- Sent/failed counters of the send loop: one counter tick per
non-skipped user, `sent` on transport success, `failed` on failure. -/
def sendCounts (emails : Nat → Option String) (sendOk : String → Bool)
    (users : List (Nat × List Nat)) : Nat × Nat :=
  users.foldl
    (fun c p =>
      match emails p.1 with
      | none => c
      | some e =>
          if e = "" ∨ p.2.isEmpty then c
          else if sendOk e then (c.1 + 1, c.2) else (c.1, c.2 + 1))
    (0, 0)

/-- The body of `main` after the date computation (lines 43-127):
abort on an events-query error, return early on an empty events list,
otherwise enrich, match and dispatch.  The five optional query results
fall back to the empty list (`res.data || []`). -/
def runMain (fr : FetchResults) (sendOk : String → Bool) :
    RunOutcome × List Action :=
  if h : fr.eventsRes.error.isSome then
    (RunOutcome.fatal ("Error fetching events: " ++ fr.eventsRes.error.get h), [])
  else
    let events := fr.eventsRes.data.getD []
    if events.isEmpty then (RunOutcome.noEvents, [])
    else
      let teams := fr.teamsRes.data.getD []
      let alerts := fr.alertsRes.data.getD []
      let bmap := fun i =>
        lookupEntry (mkBroadcasterMap (fr.broadcastersRes.data.getD [])) i
      let _enriched := events.map (enrichEvent bmap)
      let emails := mkUserEmailMap (fr.usersRes.data.getD [])
      let usersList := runMatcher teams events alerts
      let c := sendCounts emails sendOk usersList
      (RunOutcome.done c.1 c.2, dispatchTrace emails 5 usersList)

/-- Line 356, `main().catch(console.error)`: a rejection of `main` is
handled by logging it; nothing sets a process exit code, so the process
exits with status 0 in every case.  Returns (exit status, logged
errors). -/
def topLevelRun (fr : FetchResults) (sendOk : String → Bool) :
    Nat × List String :=
  match runMain fr sendOk with
  | (RunOutcome.fatal msg, _) => (0, [msg])
  | _ => (0, [])

/-! ### Concrete data used by counterexamples and witnesses -/

/-- A tennis event of an unrecognised competition. -/
def davisCupEvent : Event :=
  { id := 1, sport_id := 20, competition := some "Davis Cup",
    date := "2024-05-01", time := some "14:30:00",
    event_detail_1 := some "Alcaraz", event_detail_2 := some "Sinner",
    broadcaster_ids := none, start_at := none }

/-- A tennis alert whose league filter is the number 0. -/
def zeroLeagueAlert : Alert :=
  { id := 1, user_id := 1, sport_id := 20, league_id := some 0, team_id := none }

/-- An ATP Tour tennis event. -/
def atpEvent : Event :=
  { id := 2, sport_id := 20, competition := some "ATP Tour",
    date := "2024-05-01", time := some "14:30:00",
    event_detail_1 := some "Alcaraz", event_detail_2 := some "Sinner",
    broadcaster_ids := none, start_at := none }

/-- A tennis alert filtered on the ATP league code. -/
def atpAlert : Alert :=
  { id := 2, user_id := 1, sport_id := 20, league_id := some 1, team_id := none }

/-- A football event whose first participant-detail field is absent. -/
def nullDetailEvent : Event :=
  { id := 3, sport_id := 7, competition := some "Ligue 1",
    date := "2024-05-01", time := some "21:00:00",
    event_detail_1 := none, event_detail_2 := some "psg",
    broadcaster_ids := none, start_at := none }

/-- A football alert whose team filter resolves to no known team. -/
def ghostTeamAlert : Alert :=
  { id := 3, user_id := 2, sport_id := 7, league_id := none, team_id := some 42 }

/-- A football event between PSG and Lens. -/
def psgEvent : Event :=
  { id := 4, sport_id := 7, competition := some "Ligue 1",
    date := "2024-05-01", time := some "21:00:00",
    event_detail_1 := some "PSG", event_detail_2 := some "Lens",
    broadcaster_ids := none, start_at := none }

/-- A football alert filtered on the team PSG. -/
def psgAlert : Alert :=
  { id := 4, user_id := 2, sport_id := 7, league_id := none, team_id := some 8 }

/-- The teams table holding PSG. -/
def psgTeams : List Team := [{ id := 8, name := "PSG" }]

/-! ### C1: tennis matching -/

/-- Claim C1, counterexample: a tennis alert whose league filter is the
falsy number 0 matches a tennis event of an unrecognised competition,
although that league filter is neither absent nor equal to any
competition-derived league code. -/
theorem C1_claim_counterexample :
    eventAlertMatch [] davisCupEvent zeroLeagueAlert = true ∧
    zeroLeagueAlert.league_id ≠ none ∧
    zeroLeagueAlert.league_id ≠ tennisLeagueCode davisCupEvent.competition ∧
    davisCupEvent.sport_id = 20 ∧
    zeroLeagueAlert.sport_id = davisCupEvent.sport_id := by
  decide

/-- Claim C1 (amended): for a tennis event and an alert of the same
sport, the matcher includes the event iff the alert's league filter is
absent or 0 (JS truthiness treats 0 like an absent filter), or the
league filter is the ATP code 1 and the competition is "ATP Tour", or
the league filter is the WTA code 22 and the competition is
"WTA Tour". -/
theorem C1_tennis_match_amended (teams : List Team) (e : Event) (a : Alert)
    (hs : e.sport_id = 20) (ha : a.sport_id = e.sport_id) :
    eventAlertMatch teams e a = true ↔
      (a.league_id = none ∨ a.league_id = some 0 ∨
       (e.competition = some "ATP Tour" ∧ a.league_id = some 1) ∨
       (e.competition = some "WTA Tour" ∧ a.league_id = some 22)) := by
  simp only [eventAlertMatch, ha, hs, ne_eq, not_true_eq_false, if_false, if_true,
    ite_self, tennisMatch, tennisLeagueCode]
  cases hl : a.league_id with
  | none => simp [jsFalsyInt]
  | some n =>
      by_cases h1 : e.competition = some "ATP Tour"
      · simp [jsFalsyInt, h1]
      · by_cases h2 : e.competition = some "WTA Tour"
        · simp [jsFalsyInt, h1, h2]
        · simp [jsFalsyInt, h1, h2]

/-- Witness for C1: the amended characterisation evaluated on an
ATP Tour event and an alert carrying the ATP league code. -/
theorem C1_tennis_match_amended_witness :
    (atpEvent.sport_id = 20 ∧ atpAlert.sport_id = atpEvent.sport_id) ∧
    (eventAlertMatch [] atpEvent atpAlert = true ↔
      (atpAlert.league_id = none ∨ atpAlert.league_id = some 0 ∨
       (atpEvent.competition = some "ATP Tour" ∧ atpAlert.league_id = some 1) ∨
       (atpEvent.competition = some "WTA Tour" ∧ atpAlert.league_id = some 22))) :=
  ⟨⟨by decide, by decide⟩,
   C1_tennis_match_amended [] atpEvent atpAlert (by decide) (by decide)⟩

/-! ### C2: generic team matching -/

/-- Claim C2, counterexample: an alert whose team filter resolves to no
known team does match a non-tennis event one of whose participant-detail
fields is absent, because the failed lookup (`undefined`) compares equal
to the optional-chained absent field inside `includes`. -/
theorem C2_claim_counterexample :
    eventAlertMatch [] nullDetailEvent ghostTeamAlert = true ∧
    ghostTeamAlert.team_id = some 42 ∧
    teamNameLookup [] 42 = none ∧
    nullDetailEvent.sport_id ≠ 20 ∧
    ghostTeamAlert.sport_id = nullDetailEvent.sport_id := by
  decide

/-- Claim C2 (amended): for a non-tennis event and an alert of the same
sport, the matcher includes the event iff the alert's team filter is
absent or 0 (JS truthiness treats 0 like an absent filter), or the team
filter resolves to a known team whose lowercased name equals a
lowercased participant-detail value, or the team filter resolves to no
known team and at least one participant-detail field is absent (the
failed lookup and the absent field compare equal). -/
theorem C2_generic_match_amended (teams : List Team) (e : Event) (a : Alert)
    (hs : e.sport_id ≠ 20) (ha : a.sport_id = e.sport_id) :
    eventAlertMatch teams e a = true ↔
      (a.team_id = none ∨ a.team_id = some 0 ∨
       (∃ tid nm, a.team_id = some tid ∧ teamNameLookup teams tid = some nm ∧
         (e.event_detail_1.map jsToLowerCase = some nm ∨
          e.event_detail_2.map jsToLowerCase = some nm)) ∨
       (∃ tid, a.team_id = some tid ∧ teamNameLookup teams tid = none ∧
         (e.event_detail_1 = none ∨ e.event_detail_2 = none))) := by
  simp only [eventAlertMatch, ha, hs, ne_eq, not_true_eq_false, if_false, if_true,
    ite_self, genericMatch]
  cases hl : a.team_id with
  | none => simp [jsFalsyNat]
  | some n =>
      cases hn : teamNameLookup teams n with
      | none =>
          cases d1 : e.event_detail_1 <;> cases d2 : e.event_detail_2 <;>
            simp [jsFalsyNat, hn, List.contains_cons, beq_iff_eq]
      | some nm =>
          cases d1 : e.event_detail_1 <;> cases d2 : e.event_detail_2 <;>
            simp [jsFalsyNat, hn, List.contains_cons, beq_iff_eq,
              @eq_comm String nm]

/-- Witness for C2: the amended characterisation evaluated on a PSG
event and an alert whose team filter resolves to PSG. -/
theorem C2_generic_match_amended_witness :
    (psgEvent.sport_id ≠ 20 ∧ psgAlert.sport_id = psgEvent.sport_id) ∧
    (eventAlertMatch psgTeams psgEvent psgAlert = true ↔
      (psgAlert.team_id = none ∨ psgAlert.team_id = some 0 ∨
       (∃ tid nm, psgAlert.team_id = some tid ∧
         teamNameLookup psgTeams tid = some nm ∧
         (psgEvent.event_detail_1.map jsToLowerCase = some nm ∨
          psgEvent.event_detail_2.map jsToLowerCase = some nm)) ∨
       (∃ tid, psgAlert.team_id = some tid ∧
         teamNameLookup psgTeams tid = none ∧
         (psgEvent.event_detail_1 = none ∨ psgEvent.event_detail_2 = none)))) :=
  ⟨⟨by decide, by decide⟩,
   C2_generic_match_amended psgTeams psgEvent psgAlert (by decide) (by decide)⟩

/-! ### C3: sport mismatch -/

/-- Claim C3: an (event, alert) pair whose sport identifiers differ is
never a match, whatever the other fields hold. -/
theorem C3_sport_mismatch_never_matches (teams : List Team) (e : Event)
    (a : Alert) (h : a.sport_id ≠ e.sport_id) :
    eventAlertMatch teams e a = false := by
  simp [eventAlertMatch, h]

/-- Witness for C3: a tennis alert against a football event. -/
theorem C3_sport_mismatch_never_matches_witness :
    atpAlert.sport_id ≠ psgEvent.sport_id ∧
    eventAlertMatch psgTeams psgEvent atpAlert = false :=
  ⟨by decide, C3_sport_mismatch_never_matches psgTeams psgEvent atpAlert (by decide)⟩

/-! ### C4: per-user event sets are duplicate-free and nonempty -/

theorem foldl_preserve {α β : Type} (P : β → Prop) (f : β → α → β)
    (hf : ∀ s a, P s → P (f s a)) :
    ∀ (l : List α) (s : β), P s → P (l.foldl f s) := by
  intro l
  induction l with
  | nil => intro s hs; simpa using hs
  | cons a t ih => intro s hs; simpa using ih (f s a) (hf s a hs)

theorem setAdd_nodup {s : List Nat} (h : s.Nodup) (x : Nat) :
    (setAdd s x).Nodup := by
  unfold setAdd
  by_cases hx : x ∈ s
  · simpa [hx] using h
  · simp [hx, List.nodup_append, h]

theorem setAdd_ne_nil (s : List Nat) (x : Nat) : setAdd s x ≠ [] := by
  unfold setAdd
  by_cases hx : x ∈ s
  · simp only [hx, if_true]
    intro hnil
    rw [hnil] at hx
    exact List.not_mem_nil x hx
  · simp [hx]

/-- The invariant of the accumulating user map: every recorded event
set is duplicate-free and nonempty. -/
def SetsInv (m : List (Nat × List Nat)) : Prop :=
  ∀ p ∈ m, p.2.Nodup ∧ p.2 ≠ []

theorem mapAdd_inv {m : List (Nat × List Nat)} (h : SetsInv m) (uid x : Nat) :
    SetsInv (mapAdd m uid x) := by
  induction m with
  | nil =>
      intro p hp
      simp only [mapAdd, List.mem_singleton] at hp
      subst hp
      exact ⟨List.nodup_singleton x, by simp⟩
  | cons q rest ih =>
      obtain ⟨u, s⟩ := q
      by_cases hu : u = uid
      · intro p hp
        simp only [mapAdd, hu, if_true] at hp
        rcases List.mem_cons.mp hp with hp | hp
        · subst hp
          have hq := h (uid, s) (by simp [hu])
          exact ⟨setAdd_nodup hq.1 x, setAdd_ne_nil s x⟩
        · exact h p (List.mem_cons_of_mem _ hp)
      · intro p hp
        simp only [mapAdd, hu, if_false] at hp
        rcases List.mem_cons.mp hp with hp | hp
        · subst hp
          exact h (u, s) (List.mem_cons_self _ _)
        · have hrest : SetsInv rest := fun q hq => h q (List.mem_cons_of_mem _ hq)
          exact ih hrest p hp

/-- Claim C4: every entry of the matcher's output maps a user to a
duplicate-free, nonempty set of events — an event matched by several
alerts of the same user is recorded once, and a user only appears in
the mapping once an event has been added for it. -/
theorem C4_user_sets_nodup_nonempty (teams : List Team) (events : List Event)
    (alerts : List Alert) :
    ∀ p ∈ runMatcher teams events alerts, p.2.Nodup ∧ p.2 ≠ [] := by
  unfold runMatcher
  apply foldl_preserve SetsInv
  · intro m ie hm
    apply foldl_preserve SetsInv
    · intro m2 a hm2
      by_cases hmatch : eventAlertMatch teams ie.2 a = true
      · simpa [hmatch] using mapAdd_inv hm2 a.user_id ie.1
      · simpa [hmatch] using hm2
    · exact hm
  · intro p hp
    simp at hp

/-- Witness for C4: one PSG event matched for user 2 through the PSG
alert; its set in the output mapping is the singleton of that event. -/
theorem C4_user_sets_nodup_nonempty_witness :
    (2, [0]) ∈ runMatcher psgTeams [psgEvent] [psgAlert] ∧
    ([0] : List Nat).Nodup ∧ ([0] : List Nat) ≠ [] :=
  ⟨by decide,
   C4_user_sets_nodup_nonempty psgTeams [psgEvent] [psgAlert] (2, [0]) (by decide)⟩

/-! ### C5: date resolver -/

/-- Claim C5: the Date Resolver depends only on the local calendar date
and on whether the local hour is strictly below 6 — any two instants
agreeing on those produce the same target date — and it yields today's
ISO date before 6 AM and tomorrow's civil date from 6 AM on. -/
theorem C5_date_resolver (a b : CivilDateTime)
    (hy : a.year = b.year) (hm : a.month = b.month) (hd : a.day = b.day)
    (hh : a.hour < 6 ↔ b.hour < 6) :
    targetDateOf a = targetDateOf b ∧
    (a.hour < 6 → targetDateOf a = toISODate a.year a.month a.day) ∧
    (6 ≤ a.hour →
      targetDateOf a =
        toISODate (nextDay a.year a.month a.day).1
          (nextDay a.year a.month a.day).2.1
          (nextDay a.year a.month a.day).2.2) := by
  refine ⟨?_, ?_, ?_⟩
  · by_cases h6 : a.hour < 6
    · simp [targetDateOf, h6, hh.mp h6, hy, hm, hd]
    · have h6b : ¬ b.hour < 6 := fun hb => h6 (hh.mpr hb)
      simp [targetDateOf, h6, h6b, hy, hm, hd]
  · intro h6
    simp [targetDateOf, h6]
  · intro h6
    have h6n : ¬ a.hour < 6 := by omega
    simp [targetDateOf, h6n]

/-- Witness for C5: 05:59 and 05:00 on 2024-03-30 resolve alike (and to
that same day); the theorem is applied at the boundary instant pair. -/
theorem C5_date_resolver_witness :
    ((2024 : Nat) = 2024 ∧ (3 : Nat) = 3 ∧ (30 : Nat) = 30 ∧
      ((5 : Nat) < 6 ↔ (5 : Nat) < 6)) ∧
    (targetDateOf ⟨2024, 3, 30, 5, 59⟩ = targetDateOf ⟨2024, 3, 30, 5, 0⟩ ∧
     ((5 : Nat) < 6 →
       targetDateOf ⟨2024, 3, 30, 5, 59⟩ = toISODate 2024 3 30) ∧
     (6 ≤ (5 : Nat) →
       targetDateOf ⟨2024, 3, 30, 5, 59⟩ =
         toISODate (nextDay 2024 3 30).1 (nextDay 2024 3 30).2.1
           (nextDay 2024 3 30).2.2)) :=
  ⟨⟨rfl, rfl, rfl, Iff.rfl⟩,
   C5_date_resolver ⟨2024, 3, 30, 5, 59⟩ ⟨2024, 3, 30, 5, 0⟩ rfl rfl rfl Iff.rfl⟩

/-! ### C6: dispatcher batching -/

theorem ceil_div_succ (n B : Nat) (hB : 0 < B) (hn : 0 < n) :
    (n + B - 1) / B = (n - B + B - 1) / B + 1 := by
  have h1 : n + B - 1 = (n - 1) + B := by omega
  rw [h1, Nat.add_div_right _ hB]
  by_cases h : B ≤ n
  · have h2 : n - B + B - 1 = n - 1 := by omega
    rw [h2]
  · have h2 : n - B = 0 := by omega
    rw [h2]
    have h3 : (n - 1) / B = 0 := Nat.div_eq_of_lt (by omega)
    have h4 : (0 + B - 1) / B = 0 := Nat.div_eq_of_lt (by omega)
    rw [h3, h4]

theorem groupsSpec_nil {α : Type} (B : Nat) : groupsSpec B ([] : List α) = [] := by
  have h0 : (B - 1) / B = 0 := by
    cases B with
    | zero => simp
    | succ b => exact Nat.div_eq_of_lt (by omega)
  simp [groupsSpec, h0]

theorem groupsSpec_cons {α : Type} {B : Nat} (hB : 0 < B) {users : List α}
    (hu : users ≠ []) :
    groupsSpec B users = users.take B :: groupsSpec B (users.drop B) := by
  unfold groupsSpec
  have hn : 0 < users.length := List.length_pos.mpr hu
  have hlen : (users.length + B - 1) / B =
      ((users.drop B).length + B - 1) / B + 1 := by
    rw [List.length_drop]
    exact ceil_div_succ _ _ hB hn
  rw [hlen, List.range_succ_eq_map, List.map_cons, List.map_map]
  refine congrArg₂ List.cons (by simp) ?_
  have hfun : ((fun i => (users.drop (i * B)).take B) ∘ Nat.succ) =
      (fun i => (((users.drop B).drop (i * B)).take B)) := by
    funext i
    simp only [Function.comp_apply, List.drop_drop, Nat.succ_mul]
    congr 2
    omega
  rw [hfun]

theorem groupsSpec_ne_nil {α : Type} {B : Nat} (hB : 0 < B) {users : List α}
    (hu : users ≠ []) : groupsSpec B users ≠ [] := by
  rw [groupsSpec_cons hB hu]
  simp

theorem joinWithDelay_cons (g : List Action) {gs : List (List Action)}
    (h : gs ≠ []) :
    joinWithDelay (g :: gs) = g ++ Action.longDelay :: joinWithDelay gs := by
  cases gs with
  | nil => exact absurd rfl h
  | cons g2 t => rfl

theorem processBatch_nil (emails : Nat → Option String) :
    processBatch emails [] = [] := rfl

theorem dispatchTrace_eq_groups (emails : Nat → Option String) {B : Nat}
    (hB : 0 < B) (users : List (Nat × List Nat)) :
    dispatchTrace emails B users =
      joinWithDelay ((groupsSpec B users).map (processBatch emails)) := by
  have main : ∀ (n : Nat) (users : List (Nat × List Nat)), users.length ≤ n →
      dispatchTrace emails B users =
        joinWithDelay ((groupsSpec B users).map (processBatch emails)) := by
    intro n
    induction n with
    | zero =>
        intro users hlen
        have h0 : users = [] := by
          cases users with
          | nil => rfl
          | cons u t => simp at hlen
        subst h0
        rw [dispatchTrace]
        simp [groupsSpec_nil, processBatch, joinWithDelay]
    | succ n ih =>
        intro users hlen
        cases users with
        | nil =>
            rw [dispatchTrace]
            simp [groupsSpec_nil, processBatch, joinWithDelay]
        | cons u rest =>
            rw [dispatchTrace]
            by_cases hc : B < (u :: rest).length
            · rw [dif_pos ⟨hB, hc⟩]
              have hdne : (u :: rest).drop B ≠ [] := by
                intro h0
                have := List.drop_eq_nil_iff.mp h0
                omega
              rw [groupsSpec_cons hB (by simp), List.map_cons,
                joinWithDelay_cons _ (by
                  simp only [ne_eq, List.map_eq_nil_iff]
                  exact groupsSpec_ne_nil hB hdne)]
              have hih := ih ((u :: rest).drop B) (by
                rw [List.length_drop]
                simp only [List.length_cons] at hlen ⊢
                omega)
              rw [hih]
            · rw [dif_neg (by
                intro hcon
                exact hc hcon.2)]
              have hle : (u :: rest).length ≤ B := by omega
              rw [groupsSpec_cons hB (by simp), List.drop_eq_nil_of_le hle,
                groupsSpec_nil, List.map_cons, List.map_nil,
                List.take_of_length_le hle]
              rfl
  exact main users.length users (Nat.le_refl _)

theorem groupsSpec_flatten {α : Type} {B : Nat} (hB : 0 < B)
    (users : List α) : (groupsSpec B users).flatten = users := by
  have main : ∀ (n : Nat) (users : List α), users.length ≤ n →
      (groupsSpec B users).flatten = users := by
    intro n
    induction n with
    | zero =>
        intro users hlen
        have h0 : users = [] := by
          cases users with
          | nil => rfl
          | cons u t => simp at hlen
        subst h0
        simp [groupsSpec_nil]
    | succ n ih =>
        intro users hlen
        cases users with
        | nil => simp [groupsSpec_nil]
        | cons u rest =>
            rw [groupsSpec_cons hB (by simp), List.flatten_cons,
              ih ((u :: rest).drop B) (by
                rw [List.length_drop]
                simp only [List.length_cons] at hlen ⊢
                omega),
              List.take_append_drop]
  exact main users.length users (Nat.le_refl _)

theorem groupsSpec_sizes {α : Type} {B : Nat} (hB : 0 < B)
    (users : List α) :
    ∀ g ∈ groupsSpec B users, g ≠ [] ∧ g.length ≤ B := by
  have main : ∀ (n : Nat) (users : List α), users.length ≤ n →
      ∀ g ∈ groupsSpec B users, g ≠ [] ∧ g.length ≤ B := by
    intro n
    induction n with
    | zero =>
        intro users hlen g hg
        have h0 : users = [] := by
          cases users with
          | nil => rfl
          | cons u t => simp at hlen
        subst h0
        rw [groupsSpec_nil] at hg
        exact absurd hg (List.not_mem_nil g)
    | succ n ih =>
        intro users hlen g hg
        cases users with
        | nil =>
            rw [groupsSpec_nil] at hg
            exact absurd hg (List.not_mem_nil g)
        | cons u rest =>
            rw [groupsSpec_cons hB (by simp)] at hg
            rcases List.mem_cons.mp hg with hg | hg
            · subst hg
              constructor
              · cases B with
                | zero => omega
                | succ b => simp [List.take_cons]
              · simp [List.length_take]
            · exact ih ((u :: rest).drop B) (by
                rw [List.length_drop]
                simp only [List.length_cons] at hlen ⊢
                omega) g hg
  exact main users.length users (Nat.le_refl _)

theorem groupsSpec_dropLast {α : Type} {B : Nat} (hB : 0 < B)
    (users : List α) :
    ∀ g ∈ (groupsSpec B users).dropLast, g.length = B := by
  have main : ∀ (n : Nat) (users : List α), users.length ≤ n →
      ∀ g ∈ (groupsSpec B users).dropLast, g.length = B := by
    intro n
    induction n with
    | zero =>
        intro users hlen g hg
        have h0 : users = [] := by
          cases users with
          | nil => rfl
          | cons u t => simp at hlen
        subst h0
        rw [groupsSpec_nil] at hg
        exact absurd hg (List.not_mem_nil g)
    | succ n ih =>
        intro users hlen g hg
        cases users with
        | nil =>
            rw [groupsSpec_nil] at hg
            exact absurd hg (List.not_mem_nil g)
        | cons u rest =>
            rw [groupsSpec_cons hB (by simp)] at hg
            by_cases hc : B < (u :: rest).length
            · have hdne : (u :: rest).drop B ≠ [] := by
                intro h0
                have := List.drop_eq_nil_iff.mp h0
                omega
              rw [List.dropLast_cons_of_ne_nil (groupsSpec_ne_nil hB hdne)] at hg
              rcases List.mem_cons.mp hg with hg | hg
              · subst hg
                rw [List.length_take]
                omega
              · exact ih ((u :: rest).drop B) (by
                  rw [List.length_drop]
                  simp only [List.length_cons] at hlen ⊢
                  omega) g hg
            · have hle : (u :: rest).length ≤ B := by omega
              rw [List.drop_eq_nil_of_le hle, groupsSpec_nil,
                List.dropLast_single] at hg
              exact absurd hg (List.not_mem_nil g)
  exact main users.length users (Nat.le_refl _)

/-- Claim C6: for a positive batch size, the dispatcher trace is exactly
the per-group traces joined with the long delay between consecutive
groups and never after the last; the groups partition the user list in
order, every group except possibly the last has exactly `B` users, and
every group is nonempty with at most `B` users (so the last has
`n mod B` users when that is nonzero).  Within a group, `processBatch`
emits the short delay after each send. -/
theorem C6_dispatch_batching (emails : Nat → Option String) (B : Nat)
    (hB : 0 < B) (users : List (Nat × List Nat)) :
    dispatchTrace emails B users =
      joinWithDelay ((groupsSpec B users).map (processBatch emails)) ∧
    (groupsSpec B users).flatten = users ∧
    (∀ g ∈ (groupsSpec B users).dropLast, g.length = B) ∧
    (∀ g ∈ groupsSpec B users, g ≠ [] ∧ g.length ≤ B) :=
  ⟨dispatchTrace_eq_groups emails hB users, groupsSpec_flatten hB users,
   groupsSpec_dropLast hB users, groupsSpec_sizes hB users⟩

/-- Twelve matched users, as in the spec's batching example. -/
def twelveUsers : List (Nat × List Nat) :=
  (List.range 12).map (fun i => (i, [0]))

/-- An email lookup resolving every user. -/
def allEmails : Nat → Option String :=
  fun _ => some "user@example.com"

/-- Witness for C6: 12 users with batch size 5 split into groups of
sizes 5, 5 and 2, the trace carries exactly two long delays, and the
theorem instantiates at that input. -/
theorem C6_dispatch_batching_witness :
    (0 < 5 ∧
     (groupsSpec 5 twelveUsers).map List.length = [5, 5, 2] ∧
     (joinWithDelay ((groupsSpec 5 twelveUsers).map (processBatch allEmails))).count
       Action.longDelay = 2) ∧
    (dispatchTrace allEmails 5 twelveUsers =
       joinWithDelay ((groupsSpec 5 twelveUsers).map (processBatch allEmails)) ∧
     (groupsSpec 5 twelveUsers).flatten = twelveUsers ∧
     (∀ g ∈ (groupsSpec 5 twelveUsers).dropLast, g.length = 5) ∧
     (∀ g ∈ groupsSpec 5 twelveUsers, g ≠ [] ∧ g.length ≤ 5)) :=
  ⟨⟨by decide, by decide, by decide⟩,
   C6_dispatch_batching allEmails 5 (by decide) twelveUsers⟩

/-! ### C7: fatal events-query error -/

/-- A query result holding the empty row set. -/
def okEmpty {α : Type} : QueryRes α := ⟨some [], none⟩

/-- A fetch whose mandatory events query failed. -/
def failingEventsFetch : FetchResults :=
  { sportsRes := okEmpty, eventsRes := ⟨none, some "boom"⟩,
    broadcastersRes := okEmpty, teamsRes := okEmpty,
    alertsRes := okEmpty, usersRes := okEmpty }

/-- Claim C7, evaluated at the failing input: when the events query
fails, `main` rejects before matching (the outcome is `fatal`) and no
send action occurs — but `main().catch(console.error)` handles the
rejection, so the error is merely logged and the process exit status is
0, not the non-zero status the claim requires. -/
theorem C7_fatal_events_error_exit_status :
    (runMain failingEventsFetch (fun _ => true)).1 =
      RunOutcome.fatal "Error fetching events: boom" ∧
    (runMain failingEventsFetch (fun _ => true)).2 = [] ∧
    topLevelRun failingEventsFetch (fun _ => true) =
      (0, ["Error fetching events: boom"]) :=
  ⟨rfl, rfl, rfl⟩

/-! ### C8: broadcasters section of an event block -/

theorem sortByName_perm (l : List Broadcaster) : (sortByName l).Perm l :=
  List.mergeSort_perm l _

theorem sortByName_pairwise (l : List Broadcaster) :
    (sortByName l).Pairwise (fun x y => x.name ≤ y.name) := by
  have h := @List.sorted_mergeSort Broadcaster
    (fun a b : Broadcaster => a.name ≤ b.name)
    (fun a b c hab hbc => by
      simp only [decide_eq_true_eq] at *
      exact le_trans hab hbc)
    (fun a b => by
      simp only [Bool.or_eq_true, decide_eq_true_eq]
      exact le_total a.name b.name)
    l
  exact h.imp (fun hab => by simpa using hab)

/-- Claim C8: the rendered broadcasters section consists of exactly two
groups — the TV group holding precisely the tv-typed broadcasters and
the STREAMING group precisely the streaming-typed ones, both sorted by
name ascending, other types in neither group — and when both groups are
empty the whole section is the single placeholder line with no group
header. -/
theorem C8_broadcasters_section_groups (bs : List Broadcaster) :
    (tvListOf bs).Perm (bs.filter (fun b => b.type = "tv")) ∧
    (streamingListOf bs).Perm (bs.filter (fun b => b.type = "streaming")) ∧
    (tvListOf bs).Pairwise (fun x y => x.name ≤ y.name) ∧
    (streamingListOf bs).Pairwise (fun x y => x.name ≤ y.name) ∧
    (∀ b ∈ bs, b.type ≠ "tv" → b.type ≠ "streaming" →
      b ∉ tvListOf bs ∧ b ∉ streamingListOf bs) ∧
    broadcastersSection bs =
      (if tvListOf bs = [] then []
       else SectionItem.tvHeader :: (tvListOf bs).map SectionItem.row) ++
      (if streamingListOf bs = [] then []
       else SectionItem.streamingHeader ::
         (streamingListOf bs).map SectionItem.row) ++
      (if tvListOf bs = [] ∧ streamingListOf bs = []
       then [SectionItem.noBroadcaster] else []) := by
  refine ⟨?_, ?_, ?_, ?_, ?_, ?_⟩
  · exact sortByName_perm _
  · exact sortByName_perm _
  · exact sortByName_pairwise _
  · exact sortByName_pairwise _
  · intro b hb htv hst
    constructor
    · intro hmem
      have := (sortByName_perm _).mem_iff.mp hmem
      rw [List.mem_filter] at this
      exact htv (by simpa using this.2)
    · intro hmem
      have := (sortByName_perm _).mem_iff.mp hmem
      rw [List.mem_filter] at this
      exact hst (by simpa using this.2)
  · unfold broadcastersSection
    by_cases h1 : tvListOf bs = [] <;> by_cases h2 : streamingListOf bs = [] <;>
      simp [h1, h2, List.length_pos, List.length_eq_zero]

/-! ### C9: event enrichment -/

theorem filterBoolean_eq_filterMap {α : Type} (l : List (Option α)) :
    filterBoolean l = l.filterMap id := by
  induction l with
  | nil => rfl
  | cons x t ih =>
      cases x <;>
        simp only [filterBoolean, List.foldr_cons, List.filterMap_cons] <;>
        simp only [filterBoolean] at ih <;> simp [ih]

/-- Claim C9: enrichment resolves the listed broadcaster IDs in order,
silently dropping the unresolved ones; an absent ID list yields the
empty broadcasters list; and a record appears in the result exactly when
some listed ID resolves to it.  All cases are total — no error is
raised. -/
theorem C9_enrich_broadcasters (bmap : Nat → Option Broadcaster)
    (ids : List Nat) :
    enrichBroadcasters bmap (some ids) = ids.filterMap bmap ∧
    enrichBroadcasters bmap none = [] ∧
    (∀ b : Broadcaster, b ∈ enrichBroadcasters bmap (some ids) ↔
      ∃ i ∈ ids, bmap i = some b) := by
  have h1 : enrichBroadcasters bmap (some ids) = ids.filterMap bmap := by
    unfold enrichBroadcasters
    rw [filterBoolean_eq_filterMap]
    simp [List.filterMap_map]
  refine ⟨h1, rfl, ?_⟩
  intro b
  rw [h1]
  exact List.mem_filterMap

/-! ### C10: empty events list -/

/-- A fetch whose events query succeeded with zero rows. -/
def emptyEventsFetch : FetchResults :=
  { sportsRes := okEmpty, eventsRes := okEmpty,
    broadcastersRes := okEmpty, teamsRes := okEmpty,
    alertsRes := okEmpty, usersRes := okEmpty }

/-- Claim C10: when the events query succeeds with zero rows, `main`
returns early with the `noEvents` outcome — distinct from `done`, so no
sent/failed summary is produced — and the dispatch trace is empty (no
matching, no emails). -/
theorem C10_no_events_early_return (fr : FetchResults)
    (sendOk : String → Bool) (he : fr.eventsRes.error = none)
    (hd : fr.eventsRes.data = some []) :
    runMain fr sendOk = (RunOutcome.noEvents, []) := by
  simp [runMain, he, hd]

/-- Witness for C10: the early return evaluated on a fetch whose
queries all succeed with zero rows. -/
theorem C10_no_events_early_return_witness :
    (emptyEventsFetch.eventsRes.error = none ∧
     emptyEventsFetch.eventsRes.data = some []) ∧
    runMain emptyEventsFetch (fun _ => true) = (RunOutcome.noEvents, []) :=
  ⟨⟨rfl, rfl⟩,
   C10_no_events_early_return emptyEventsFetch (fun _ => true) rfl rfl⟩

end Alert365
